import Mathlib

/-!
Shallow embedding of `purchase-backend/server.js` (LegalTenderPay):
the verification-code service with its code store, rate limiter,
notification dispatcher (`sendMail`) and periodic Reaper, together with
the two HTTP handlers `POST /api/send-code` and `POST /api/verify-code`.

Times are absolute milliseconds (`Date.now()`), modelled as `Int`.
JavaScript `Map`s are modelled as insertion-ordered association lists
with unique keys (`JsMap`); `Map.set` replaces in place or appends,
`Map.get` finds, `Map.delete` removes.
-/

/-- Association-list model of a JavaScript `Map` keyed by strings. -/
abbrev JsMap (α : Type) := List (String × α)

/-- `Map.get(k)`: the value at key `k`, if present. -/
def mapGet {α : Type} : JsMap α → String → Option α
  | [], _ => none
  | (k1, v1) :: rest, k => if k1 = k then some v1 else mapGet rest k

/-- `Map.set(k, v)`: replace the entry for `k` in place, or append a new one. -/
def mapSet {α : Type} : JsMap α → String → α → JsMap α
  | [], k, v => [(k, v)]
  | (k1, v1) :: rest, k, v =>
    if k1 = k then (k, v) :: rest else (k1, v1) :: mapSet rest k v

/-- `Map.delete(k)`: remove the entry (if any) at key `k`. -/
def mapDelete {α : Type} : JsMap α → String → JsMap α
  | [], _ => []
  | (k1, v1) :: rest, k =>
    if k1 = k then mapDelete rest k else (k1, v1) :: mapDelete rest k

/-- An entry of the code store `codes`: `email -> { code, expiresAt (ms) }`. -/
structure CodeEntry where
  code : String
  expiresAt : Int
deriving DecidableEq, Repr

/-- The mutable in-memory state of the service:
`codes` (code store) and `sendCounts` (rate limiter timestamps, ms). -/
structure ServerState where
  codes : JsMap CodeEntry
  sendCounts : JsMap (List Int)
deriving DecidableEq, Repr

/-- Default of `RATE_LIMIT_PER_HOUR` (`parseInt(... || "3")`). -/
def defaultRateLimitPerHour : Nat := 3

/-- Default of `CODE_TTL_MINUTES` (`parseInt(... || "15")`). -/
def defaultCodeTtlMinutes : Nat := 15

/-- `canSend(email)`: count the recorded timestamps strictly inside the
trailing hour (`t > now - 60*60*1000`) and compare with the limit. -/
def canSend (limit : Nat) (now : Int) (st : ServerState) (email : String) : Bool :=
  let windowStart : Int := now - 60 * 60 * 1000
  let arr := (mapGet st.sendCounts email).getD []
  let recent := arr.filter (fun t => decide (t > windowStart))
  decide (recent.length < limit)

/-- `recordSend(email)`: push `Date.now()` onto the email's timestamp array. -/
def recordSend (now : Int) (st : ServerState) (email : String) : ServerState :=
  let arr := (mapGet st.sendCounts email).getD []
  { st with sendCounts := mapSet st.sendCounts email (arr ++ [now]) }

/-- One rate record under the cleanup sweep: keep only timestamps with
`t > now - 1000*3600`; delete the record (`none`) when none remain. -/
def pruneRecord (now : Int) (p : String × List Int) : Option (String × List Int) :=
  let recent := p.2.filter (fun t => decide (t > now - 1000 * 3600))
  if recent.isEmpty then none else some (p.1, recent)

/-- The periodic cleanup (`setInterval` body): drop code entries with
`expiresAt <= now`, and prune every rate record. -/
def reaper (now : Int) (st : ServerState) : ServerState :=
  { codes := st.codes.filter (fun p => decide (now < p.2.expiresAt)),
    sendCounts := st.sendCounts.filterMap (pruneRecord now) }

/-- `generateCode()`: `Math.floor(100000 + Math.random() * 900000).toString()`,
with the double `Math.random()` modelled as the dyadic rational
`k / 2 ^ 53` for some `k < 2 ^ 53`, so the floor is `100000 + k * 900000 / 2 ^ 53`
in natural-number division. -/
def generateCode (k : Nat) : String :=
  (100000 + k * 900000 / 2 ^ 53).repr

/-- JavaScript `String.prototype.trim()`: strip leading and trailing
whitespace characters. -/
def jsTrim (s : String) : String :=
  ⟨((s.data.dropWhile Char.isWhitespace).reverse.dropWhile Char.isWhitespace).reverse⟩

/-- A JSON value arriving in the `code` field of a verify-code request:
a string or a (nonnegative integer) number. -/
inductive JsVal where
  | str (s : String)
  | num (n : Nat)
deriving DecidableEq, Repr

/-- JavaScript `String(v)` on such a value: numbers print in decimal. -/
def JsVal.toStr : JsVal → String
  | .str s => s
  | .num n => n.repr

/-- JavaScript falsiness of such a value: `""` and `0` are falsy. -/
def JsVal.falsy : JsVal → Bool
  | .str s => decide (s = "")
  | .num n => decide (n = 0)

/-- A JSON response body: `{ success: true, message }` or `{ error }`. -/
inductive RespBody where
  | ok (message : String)
  | err (error : String)
deriving DecidableEq, Repr

/-- An HTTP response: status code and JSON body. -/
structure HttpResponse where
  status : Nat
  body : RespBody
deriving DecidableEq, Repr

/-- The email provider selected by `EMAIL_PROVIDER` (default smtp). -/
inductive Provider where
  | sendgrid
  | resend
  | smtp
deriving DecidableEq, Repr

/-- The provider credentials from the environment. -/
structure EmailEnv where
  sendgridApiKey : Option String
  resendApiKey : Option String
  emailUser : Option String
  emailPass : Option String
deriving DecidableEq, Repr

/-- JavaScript falsiness of an env credential: unset or empty is missing. -/
def credMissing : Option String → Bool
  | none => true
  | some s => s == ""

/-- The upstream HTTP response seen by `fetch` inside `sendMail`. -/
structure FetchResp where
  ok : Bool
  status : Nat
  body : String
deriving DecidableEq, Repr

/-- `sendMail` abstraction: sendgrid or resend call `fetch` with a bearer
token and throw `X failed: status body` on a non-2xx response, after
throwing `Missing ...` when the variant's credential is absent; smtp throws
`Missing EMAIL_USER or EMAIL_PASS for SMTP` when credentials are absent and
otherwise returns the nodemailer outcome. `Except.error` models `throw`. -/
def sendMail (provider : Provider) (env : EmailEnv) (fetchResp : FetchResp)
    (smtpResult : Except String Unit) : Except String Unit :=
  match provider with
  | .sendgrid =>
    if credMissing env.sendgridApiKey then
      .error "Missing SENDGRID_API_KEY"
    else if fetchResp.ok then
      .ok ()
    else
      .error ("SendGrid failed: " ++ toString fetchResp.status ++ " " ++ fetchResp.body)
  | .resend =>
    if credMissing env.resendApiKey then
      .error "Missing RESEND_API_KEY"
    else if fetchResp.ok then
      .ok ()
    else
      .error ("Resend failed: " ++ toString fetchResp.status ++ " " ++ fetchResp.body)
  | .smtp =>
    if credMissing env.emailUser || credMissing env.emailPass then
      .error "Missing EMAIL_USER or EMAIL_PASS for SMTP"
    else
      smtpResult

/-- `POST /api/send-code`. `isEmail` is the external validator; `code` is
the value produced by `generateCode()`; `dispatch` is the outcome of
`await sendMail(...)` (`Except.error` models a thrown provider error).
The code entry is stored before the dispatch and the timestamp is recorded
only after a successful dispatch, exactly as in the handler. -/
def sendCode (limit ttlMinutes : Nat) (isEmail : String → Bool) (now : Int)
    (st : ServerState) (email : Option String) (code : String)
    (dispatch : Except String Unit) : HttpResponse × ServerState :=
  match email with
  | none => ({ status := 400, body := .err "Valid email required" }, st)
  | some e =>
    if e = "" ∨ isEmail e = false then
      ({ status := 400, body := .err "Valid email required" }, st)
    else if canSend limit now st e = false then
      ({ status := 429,
         body := .err ("Rate limit: max " ++ toString limit ++ " codes per hour") }, st)
    else
      let expiresAt : Int := now + (ttlMinutes : Int) * 60 * 1000
      let st1 : ServerState :=
        { st with codes := mapSet st.codes e { code := code, expiresAt := expiresAt } }
      match dispatch with
      | .error _ => ({ status := 500, body := .err "Failed to send code" }, st1)
      | .ok _ =>
        let st2 := recordSend now st1 e
        ({ status := 200, body := .ok "Verification email sent" }, st2)

/-- `POST /api/verify-code`: missing/invalid fields, lookup, lazy expiry
check (`entry.expiresAt < Date.now()` deletes and reports expiry), string
comparison against `String(code).trim()`, and single-use deletion. -/
def verifyCode (isEmail : String → Bool) (now : Int) (st : ServerState)
    (email : Option String) (code : Option JsVal) : HttpResponse × ServerState :=
  match email, code with
  | some e, some c =>
    if e = "" ∨ isEmail e = false ∨ c.falsy = true then
      ({ status := 400, body := .err "Email and code required" }, st)
    else
      match mapGet st.codes e with
      | none => ({ status := 400, body := .err "No code found or code expired" }, st)
      | some entry =>
        if entry.expiresAt < now then
          ({ status := 400, body := .err "Code expired" },
           { st with codes := mapDelete st.codes e })
        else if entry.code ≠ jsTrim c.toStr then
          ({ status := 400, body := .err "Invalid code" }, st)
        else
          ({ status := 200, body := .ok "Email verified" },
           { st with codes := mapDelete st.codes e })
  | _, _ => ({ status := 400, body := .err "Email and code required" }, st)

/-- The keys of a `JsMap` are pairwise distinct (the `Map` invariant). -/
def keysNodup {α : Type} (m : JsMap α) : Prop :=
  (m.map Prod.fst).Nodup

theorem mapGet_mapSet_self {α : Type} (m : JsMap α) (k : String) (v : α) :
    mapGet (mapSet m k v) k = some v := by
  induction m with
  | nil => simp [mapGet, mapSet]
  | cons p rest ih =>
    obtain ⟨k1, v1⟩ := p
    by_cases h : k1 = k
    · subst h; simp [mapGet, mapSet]
    · simp [mapGet, mapSet, h, ih]

theorem mapGet_mapDelete_self {α : Type} (m : JsMap α) (k : String) :
    mapGet (mapDelete m k) k = none := by
  induction m with
  | nil => simp [mapGet, mapDelete]
  | cons p rest ih =>
    obtain ⟨k1, v1⟩ := p
    by_cases h : k1 = k
    · subst h; simp [mapDelete, ih]
    · simp [mapGet, mapDelete, h, ih]

theorem recordSend_codes (now : Int) (st : ServerState) (e : String) :
    (recordSend now st e).codes = st.codes := rfl

theorem canSend_sendCounts (limit : Nat) (now : Int) (st st2 : ServerState) (e : String)
    (h : st2.sendCounts = st.sendCounts) :
    canSend limit now st2 e = canSend limit now st e := by
  simp [canSend, h]

/-- Computation of the send-code handler on a passing request whose
dispatch succeeds. -/
theorem sendCode_ok (limit ttl : Nat) (isEmail : String → Bool) (now : Int)
    (st : ServerState) (e c : String) (he0 : e ≠ "") (he : isEmail e = true)
    (hcan : canSend limit now st e = true) :
    sendCode limit ttl isEmail now st (some e) c (.ok ()) =
      (⟨200, .ok "Verification email sent"⟩,
       recordSend now
         { st with codes := mapSet st.codes e ⟨c, now + (ttl : Int) * 60 * 1000⟩ } e) := by
  simp [sendCode, he0, he, hcan]

/-- Computation of the send-code handler on a passing request whose
dispatch throws. -/
theorem sendCode_err (limit ttl : Nat) (isEmail : String → Bool) (now : Int)
    (st : ServerState) (e c msg : String) (he0 : e ≠ "") (he : isEmail e = true)
    (hcan : canSend limit now st e = true) :
    sendCode limit ttl isEmail now st (some e) c (.error msg) =
      (⟨500, .err "Failed to send code"⟩,
       { st with codes := mapSet st.codes e ⟨c, now + (ttl : Int) * 60 * 1000⟩ }) := by
  simp [sendCode, he0, he, hcan]

/-- Computation of the verify-code handler when an entry is present. -/
theorem verifyCode_found (isEmail : String → Bool) (now : Int) (st : ServerState)
    (e : String) (c : JsVal) (entry : CodeEntry) (he0 : e ≠ "")
    (he : isEmail e = true) (hc : c.falsy = false)
    (hget : mapGet st.codes e = some entry) :
    verifyCode isEmail now st (some e) (some c) =
      if entry.expiresAt < now then
        (⟨400, .err "Code expired"⟩, { st with codes := mapDelete st.codes e })
      else if entry.code ≠ jsTrim c.toStr then
        (⟨400, .err "Invalid code"⟩, st)
      else
        (⟨200, .ok "Email verified"⟩, { st with codes := mapDelete st.codes e }) := by
  simp [verifyCode, he0, he, hc, hget]

/-- Computation of the verify-code handler when no entry is present. -/
theorem verifyCode_notFound (isEmail : String → Bool) (now : Int) (st : ServerState)
    (e : String) (c : JsVal) (he0 : e ≠ "") (he : isEmail e = true)
    (hc : c.falsy = false) (hget : mapGet st.codes e = none) :
    verifyCode isEmail now st (some e) (some c) =
      (⟨400, .err "No code found or code expired"⟩, st) := by
  simp [verifyCode, he0, he, hc, hget]

theorem mem_keys_mapSet {α : Type} (m : JsMap α) (k a : String) (v : α)
    (h : a ∈ (mapSet m k v).map Prod.fst) : a = k ∨ a ∈ m.map Prod.fst := by
  induction m with
  | nil => simpa [mapSet] using h
  | cons p rest ih =>
    obtain ⟨k1, v1⟩ := p
    by_cases h1 : k1 = k
    · subst h1
      simpa [mapSet] using h
    · simp only [mapSet, if_neg h1, List.map_cons, List.mem_cons] at h
      rcases h with h | h
      · subst h; simp
      · rcases ih h with h | h
        · exact Or.inl h
        · simp [h]

theorem keysNodup_mapSet {α : Type} (m : JsMap α) (k : String) (v : α)
    (h : keysNodup m) : keysNodup (mapSet m k v) := by
  induction m with
  | nil => simp [keysNodup, mapSet]
  | cons p rest ih =>
    obtain ⟨k1, v1⟩ := p
    simp only [keysNodup, List.map_cons, List.nodup_cons] at h
    by_cases h1 : k1 = k
    · subst h1
      simpa [keysNodup, mapSet] using h
    · have ih2 := ih h.2
      simp only [keysNodup, mapSet, if_neg h1, List.map_cons, List.nodup_cons]
      refine ⟨fun hmem => ?_, ih2⟩
      rcases mem_keys_mapSet rest k k1 v hmem with h2 | h2
      · exact h1 h2
      · exact h.1 h2

theorem mapDelete_sublist {α : Type} (m : JsMap α) (k : String) :
    (mapDelete m k).Sublist m := by
  induction m with
  | nil => simp [mapDelete]
  | cons p rest ih =>
    obtain ⟨k1, v1⟩ := p
    by_cases h : k1 = k
    · subst h
      rw [mapDelete, if_pos rfl]
      exact List.Sublist.cons (k1, v1) ih
    · rw [mapDelete, if_neg h]
      exact List.Sublist.cons₂ (k1, v1) ih

theorem keysNodup_mapDelete {α : Type} (m : JsMap α) (k : String)
    (h : keysNodup m) : keysNodup (mapDelete m k) :=
  List.Nodup.sublist (List.Sublist.map Prod.fst (mapDelete_sublist m k)) h

theorem keysNodup_filter {α : Type} (m : JsMap α) (p : String × α → Bool)
    (h : keysNodup m) : keysNodup (m.filter p) :=
  List.Nodup.sublist (List.Sublist.map Prod.fst (List.filter_sublist m)) h

theorem mapGet_filter_prop {α : Type} (p : String × α → Bool) (m : JsMap α)
    (k : String) (v : α) (h : mapGet (m.filter p) k = some v) : p (k, v) = true := by
  induction m with
  | nil => simp [mapGet] at h
  | cons a rest ih =>
    obtain ⟨k1, v1⟩ := a
    by_cases hp : p (k1, v1) = true
    · rw [List.filter_cons, if_pos hp] at h
      simp only [mapGet] at h
      by_cases hk : k1 = k
      · subst hk
        rw [if_pos rfl] at h
        injection h with hv
        subst hv
        exact hp
      · rw [if_neg hk] at h
        exact ih h
    · rw [List.filter_cons, if_neg hp] at h
      exact ih h

/-- Claim C2: for every valid email, issuing a code (a successful send-code
request) and then calling verify with the correct code succeeds with
HTTP 200 and deletes the entry (single use), so an immediately following
second verify with the same email and code returns HTTP 400
"No code found or code expired" and leaves the state unchanged. -/
theorem c2_issue_verify_single_use (limit ttl : Nat) (isEmail : String → Bool)
    (now : Int) (st : ServerState) (e c : String) (he0 : e ≠ "")
    (he : isEmail e = true) (hcan : canSend limit now st e = true)
    (hc0 : c ≠ "") (hct : jsTrim c = c) :
    ∃ st1 st2 : ServerState,
      sendCode limit ttl isEmail now st (some e) c (.ok ())
        = (⟨200, .ok "Verification email sent"⟩, st1) ∧
      verifyCode isEmail now st1 (some e) (some (.str c))
        = (⟨200, .ok "Email verified"⟩, st2) ∧
      mapGet st2.codes e = none ∧
      verifyCode isEmail now st2 (some e) (some (.str c))
        = (⟨400, .err "No code found or code expired"⟩, st2) := by
  have hfalsy : (JsVal.str c).falsy = false := by
    simp [JsVal.falsy, hc0]
  have hst1 := sendCode_ok limit ttl isEmail now st e c he0 he hcan
  set st1 := recordSend now
      { st with codes := mapSet st.codes e ⟨c, now + (ttl : Int) * 60 * 1000⟩ } e with hdef
  have hget1 : mapGet st1.codes e = some ⟨c, now + (ttl : Int) * 60 * 1000⟩ := by
    rw [hdef, recordSend_codes]
    exact mapGet_mapSet_self st.codes e _
  have hexp : ¬ ((⟨c, now + (ttl : Int) * 60 * 1000⟩ : CodeEntry).expiresAt < now) := by
    simp only [not_lt]
    have : (0 : Int) ≤ (ttl : Int) * 60 * 1000 := by positivity
    linarith
  have hmatch : ¬ ((⟨c, now + (ttl : Int) * 60 * 1000⟩ : CodeEntry).code
      ≠ jsTrim (JsVal.str c).toStr) := by
    simp [JsVal.toStr, hct]
  refine ⟨st1, { st1 with codes := mapDelete st1.codes e }, hst1, ?_, ?_, ?_⟩
  · rw [verifyCode_found isEmail now st1 e (.str c) _ he0 he hfalsy hget1,
      if_neg hexp, if_neg hmatch]
  · exact mapGet_mapDelete_self st1.codes e
  · exact verifyCode_notFound isEmail now _ e (.str c) he0 he hfalsy
      (mapGet_mapDelete_self st1.codes e)

/-- Witness for C2 at a concrete input. -/
theorem c2_issue_verify_single_use_witness :
    ∃ st1 st2 : ServerState,
      sendCode 3 15 (fun _ => true) 0 ⟨[], []⟩ (some "a@b.com") "482913" (.ok ())
        = (⟨200, .ok "Verification email sent"⟩, st1) ∧
      verifyCode (fun _ => true) 0 st1 (some "a@b.com") (some (.str "482913"))
        = (⟨200, .ok "Email verified"⟩, st2) ∧
      mapGet st2.codes "a@b.com" = none ∧
      verifyCode (fun _ => true) 0 st2 (some "a@b.com") (some (.str "482913"))
        = (⟨400, .err "No code found or code expired"⟩, st2) :=
  c2_issue_verify_single_use 3 15 (fun _ => true) 0 ⟨[], []⟩ "a@b.com" "482913"
    (by decide) rfl (by decide) (by decide) (by decide)

/-- Claim C7: the send-code response (status and body) does not depend on
the generated verification code: two runs that differ only in the code
produce identical responses, so the code never appears in any send-code
response body. -/
theorem c7_code_never_in_response (limit ttl : Nat) (isEmail : String → Bool)
    (now : Int) (st : ServerState) (email : Option String) (c1 c2 : String)
    (dispatch : Except String Unit) :
    (sendCode limit ttl isEmail now st email c1 dispatch).1
      = (sendCode limit ttl isEmail now st email c2 dispatch).1 := by
  cases email with
  | none => rfl
  | some e =>
    simp only [sendCode]
    split
    · rfl
    · split
      · rfl
      · cases dispatch <;> rfl

/-- Claim C1 is false on the code: the handler stores the fresh code entry
before dispatching, and a thrown provider error does not roll it back. At
a concrete input with a prior Pending entry, a send-code request whose
dispatch fails leaves the code store holding the NEW entry, not the prior
one, so the store is not the same as before the failed request. -/
theorem c1_counterexample :
    (sendCode 3 15 (fun _ => true) 0
        ⟨[("a@b.com", ⟨"111111", 600000⟩)], []⟩ (some "a@b.com") "222222"
        (.error "SendGrid failed: 500 boom")).2.codes
      = [("a@b.com", ⟨"222222", 900000⟩)] ∧
    [("a@b.com", (⟨"222222", 900000⟩ : CodeEntry))]
      ≠ [("a@b.com", ⟨"111111", 600000⟩)] := by
  constructor
  · decide
  · decide

/-- Claim C1 (amended): a send-code request whose dispatch fails consumes
no rate-limit budget — `sendCounts` is unchanged, so `canSend` gives the
same answer as before — and returns the generic 500 error; however the
fresh `Pending` entry has already been written to the code store before the
dispatch and persists, overwriting any prior entry for that email. -/
theorem c1_failed_dispatch_effects (limit ttl : Nat) (isEmail : String → Bool)
    (now : Int) (st : ServerState) (e c msg : String) (he0 : e ≠ "")
    (he : isEmail e = true) (hcan : canSend limit now st e = true) :
    (sendCode limit ttl isEmail now st (some e) c (.error msg)).1
      = ⟨500, .err "Failed to send code"⟩ ∧
    (sendCode limit ttl isEmail now st (some e) c (.error msg)).2.sendCounts
      = st.sendCounts ∧
    (∀ (l : Nat) (n : Int),
      canSend l n (sendCode limit ttl isEmail now st (some e) c (.error msg)).2 e
        = canSend l n st e) ∧
    (sendCode limit ttl isEmail now st (some e) c (.error msg)).2.codes
      = mapSet st.codes e ⟨c, now + (ttl : Int) * 60 * 1000⟩ := by
  rw [sendCode_err limit ttl isEmail now st e c msg he0 he hcan]
  exact ⟨rfl, rfl, fun l n => canSend_sendCounts l n st _ e rfl, rfl⟩

/-- Witness for the amended C1 at a concrete input. -/
theorem c1_failed_dispatch_effects_witness :
    (sendCode 3 15 (fun _ => true) 0 ⟨[], []⟩ (some "a@b.com") "222222"
        (.error "boom")).1 = ⟨500, .err "Failed to send code"⟩ ∧
    (sendCode 3 15 (fun _ => true) 0 ⟨[], []⟩ (some "a@b.com") "222222"
        (.error "boom")).2.sendCounts = ([] : JsMap (List Int)) ∧
    (∀ (l : Nat) (n : Int),
      canSend l n (sendCode 3 15 (fun _ => true) 0 ⟨[], []⟩ (some "a@b.com") "222222"
          (.error "boom")).2 "a@b.com"
        = canSend l n ⟨[], []⟩ "a@b.com") ∧
    (sendCode 3 15 (fun _ => true) 0 ⟨[], []⟩ (some "a@b.com") "222222"
        (.error "boom")).2.codes
      = mapSet ([] : JsMap CodeEntry) "a@b.com" ⟨"222222", 0 + (15 : Int) * 60 * 1000⟩ :=
  c1_failed_dispatch_effects 3 15 (fun _ => true) 0 ⟨[], []⟩ "a@b.com" "222222" "boom"
    (by decide) rfl (by decide)

/-- Claim C3 is false at the boundary: the code tests
`entry.expiresAt < Date.now()`, strictly, so at the instant `now` equals
`expiresAt` the entry is still accepted. Concretely, with an entry whose
`expiresAt` is 1000, verifying the correct code at `now = 1000` returns
HTTP 200 success rather than the claimed `Expired`. -/
theorem c3_counterexample :
    verifyCode (fun _ => true) 1000 ⟨[("a@b.com", ⟨"482913", 1000⟩)], []⟩
        (some "a@b.com") (some (.str "482913"))
      = (⟨200, .ok "Email verified"⟩, ⟨[], []⟩) := by decide

/-- Claim C3 (amended): with an entry stored, verify returns "Code expired"
exactly when `now > expiresAt` (strict; at `now = expiresAt` the entry is
still treated as live), and in the expired case the entry is deleted as
part of the check, independent of the Reaper; once `now > expiresAt` the
result is never success. -/
theorem c3_lazy_expiry (isEmail : String → Bool) (now : Int) (st : ServerState)
    (e : String) (c : JsVal) (entry : CodeEntry) (he0 : e ≠ "")
    (he : isEmail e = true) (hc : c.falsy = false)
    (hget : mapGet st.codes e = some entry) :
    ((verifyCode isEmail now st (some e) (some c)).1
        = ⟨400, .err "Code expired"⟩ ↔ entry.expiresAt < now) ∧
    (entry.expiresAt < now →
      verifyCode isEmail now st (some e) (some c)
        = (⟨400, .err "Code expired"⟩, { st with codes := mapDelete st.codes e })) := by
  rw [verifyCode_found isEmail now st e c entry he0 he hc hget]
  by_cases hexp : entry.expiresAt < now
  · rw [if_pos hexp]
    exact ⟨⟨fun _ => hexp, fun _ => rfl⟩, fun _ => rfl⟩
  · rw [if_neg hexp]
    refine ⟨⟨fun h => ?_, fun h => absurd h hexp⟩, fun h => absurd h hexp⟩
    by_cases hne : entry.code ≠ jsTrim c.toStr
    · rw [if_pos hne] at h
      simp at h
    · rw [if_neg hne] at h
      simp at h

/-- Witness for the amended C3 at a concrete input with an expired entry. -/
theorem c3_lazy_expiry_witness :
    ((verifyCode (fun _ => true) 1001 ⟨[("a@b.com", ⟨"482913", 1000⟩)], []⟩
        (some "a@b.com") (some (.str "482913"))).1
      = ⟨400, .err "Code expired"⟩ ↔ (1000 : Int) < 1001) ∧
    ((1000 : Int) < 1001 →
      verifyCode (fun _ => true) 1001 ⟨[("a@b.com", ⟨"482913", 1000⟩)], []⟩
          (some "a@b.com") (some (.str "482913"))
        = (⟨400, .err "Code expired"⟩,
           { (⟨[("a@b.com", ⟨"482913", 1000⟩)], []⟩ : ServerState) with
               codes := mapDelete [("a@b.com", ⟨"482913", 1000⟩)] "a@b.com" })) :=
  c3_lazy_expiry (fun _ => true) 1001 ⟨[("a@b.com", ⟨"482913", 1000⟩)], []⟩
    "a@b.com" (.str "482913") ⟨"482913", 1000⟩ (by decide) rfl (by decide) (by decide)

/-- Claim C4: verifying a wrong code against an unexpired entry answers
HTTP 400 "Invalid code" and leaves the whole state unchanged, so a
subsequent verify with the correct code still succeeds. -/
theorem c4_wrong_code_preserves_entry (isEmail : String → Bool) (now : Int)
    (st : ServerState) (e : String) (v : JsVal) (entry : CodeEntry)
    (he0 : e ≠ "") (he : isEmail e = true) (hv : v.falsy = false)
    (hget : mapGet st.codes e = some entry) (hexp : ¬ entry.expiresAt < now)
    (hne : entry.code ≠ jsTrim v.toStr) :
    verifyCode isEmail now st (some e) (some v) = (⟨400, .err "Invalid code"⟩, st) ∧
    (∀ w : JsVal, w.falsy = false → jsTrim w.toStr = entry.code →
      verifyCode isEmail now st (some e) (some w)
        = (⟨200, .ok "Email verified"⟩, { st with codes := mapDelete st.codes e })) := by
  constructor
  · rw [verifyCode_found isEmail now st e v entry he0 he hv hget,
      if_neg hexp, if_pos hne]
  · intro w hw hwt
    rw [verifyCode_found isEmail now st e w entry he0 he hw hget,
      if_neg hexp, if_neg (not_not_intro hwt.symm)]

/-- Witness for C4 at a concrete input. -/
theorem c4_wrong_code_preserves_entry_witness :
    verifyCode (fun _ => true) 500 ⟨[("a@b.com", ⟨"482913", 1000⟩)], []⟩
        (some "a@b.com") (some (.str "000000"))
      = (⟨400, .err "Invalid code"⟩, ⟨[("a@b.com", ⟨"482913", 1000⟩)], []⟩) ∧
    (∀ w : JsVal, w.falsy = false → jsTrim w.toStr = "482913" →
      verifyCode (fun _ => true) 500 ⟨[("a@b.com", ⟨"482913", 1000⟩)], []⟩
          (some "a@b.com") (some w)
        = (⟨200, .ok "Email verified"⟩,
           { (⟨[("a@b.com", ⟨"482913", 1000⟩)], []⟩ : ServerState) with
               codes := mapDelete [("a@b.com", ⟨"482913", 1000⟩)] "a@b.com" })) :=
  c4_wrong_code_preserves_entry (fun _ => true) 500
    ⟨[("a@b.com", ⟨"482913", 1000⟩)], []⟩ "a@b.com" (.str "000000") ⟨"482913", 1000⟩
    (by decide) rfl (by decide) (by decide) (by decide) (by decide)

/-- Claim C5: `canSend` is true exactly when the number of recorded
timestamps strictly inside the trailing 60-minute window is strictly
below the limit; and in the concrete scenario with threshold 3 and
successful sends at minutes 0, 10 and 20, a fourth send at minute 30 is
rejected with HTTP 429 while a fifth at minute 61 succeeds because the
oldest timestamp has aged out of the sliding window. -/
theorem c5_rate_limit_sliding_window :
    (∀ (limit : Nat) (now : Int) (st : ServerState) (e : String),
      canSend limit now st e = true ↔
        ((mapGet st.sendCounts e).getD []).countP
            (fun t => decide (t > now - 60 * 60 * 1000)) < limit) ∧
    (let v : String → Bool := fun _ => true
     let r1 := sendCode 3 15 v 0 ⟨[], []⟩ (some "a@b.com") "111111" (.ok ())
     let r2 := sendCode 3 15 v 600000 r1.2 (some "a@b.com") "222222" (.ok ())
     let r3 := sendCode 3 15 v 1200000 r2.2 (some "a@b.com") "333333" (.ok ())
     let r4 := sendCode 3 15 v 1800000 r3.2 (some "a@b.com") "444444" (.ok ())
     let r5 := sendCode 3 15 v 3660000 r4.2 (some "a@b.com") "555555" (.ok ())
     r1.1.status = 200 ∧ r2.1.status = 200 ∧ r3.1.status = 200 ∧
     r4.1 = ⟨429, .err "Rate limit: max 3 codes per hour"⟩ ∧
     r5.1.status = 200) := by
  constructor
  · intro limit now st e
    simp [canSend, List.countP_eq_length_filter]
  · decide

/-- Claim C6: the code store keeps at most one live entry per email — the
`Map` key-uniqueness invariant `keysNodup` is preserved by the send-code
and verify-code handlers and by the Reaper — and issuing a new code for an
email overwrites any prior entry, after which a submitted code that does
not match the newest one answers "Invalid code" (leaving the state as the
send left it) while the newest code verifies successfully. -/
theorem c6_single_entry_overwrite :
    (∀ (limit ttl : Nat) (isEmail : String → Bool) (now : Int) (st : ServerState)
        (email : Option String) (c : String) (d : Except String Unit),
      keysNodup st.codes → keysNodup (sendCode limit ttl isEmail now st email c d).2.codes) ∧
    (∀ (isEmail : String → Bool) (now : Int) (st : ServerState)
        (email : Option String) (c : Option JsVal),
      keysNodup st.codes → keysNodup (verifyCode isEmail now st email c).2.codes) ∧
    (∀ (now : Int) (st : ServerState),
      keysNodup st.codes → keysNodup (reaper now st).codes) ∧
    (∀ (limit ttl : Nat) (isEmail : String → Bool) (now : Int) (st : ServerState)
        (e c2 : String), e ≠ "" → isEmail e = true → canSend limit now st e = true →
      ∀ v : JsVal, v.falsy = false →
        (jsTrim v.toStr ≠ c2 →
          verifyCode isEmail now (sendCode limit ttl isEmail now st (some e) c2 (.ok ())).2
              (some e) (some v)
            = (⟨400, .err "Invalid code"⟩,
               (sendCode limit ttl isEmail now st (some e) c2 (.ok ())).2)) ∧
        (jsTrim v.toStr = c2 →
          (verifyCode isEmail now (sendCode limit ttl isEmail now st (some e) c2 (.ok ())).2
              (some e) (some v)).1 = ⟨200, .ok "Email verified"⟩)) := by
  refine ⟨?_, ?_, ?_, ?_⟩
  · intro limit ttl isEmail now st email c d h
    cases email with
    | none => exact h
    | some e =>
      simp only [sendCode]
      split
      · exact h
      · split
        · exact h
        · cases d with
          | error m => exact keysNodup_mapSet st.codes e _ h
          | ok u => exact keysNodup_mapSet st.codes e _ h
  · intro isEmail now st email c h
    cases email with
    | none => cases c <;> exact h
    | some e =>
      cases c with
      | none => exact h
      | some v =>
        simp only [verifyCode]
        split
        · exact h
        · cases hget : mapGet st.codes e with
          | none => simp only [hget]; exact h
          | some entry =>
            simp only [hget]
            split
            · exact keysNodup_mapDelete st.codes e h
            · split
              · exact h
              · exact keysNodup_mapDelete st.codes e h
  · intro now st h
    exact keysNodup_filter st.codes _ h
  · intro limit ttl isEmail now st e c2 he0 he hcan v hv
    have hst1 := sendCode_ok limit ttl isEmail now st e c2 he0 he hcan
    have hget1 : mapGet (sendCode limit ttl isEmail now st (some e) c2 (.ok ())).2.codes e
        = some ⟨c2, now + (ttl : Int) * 60 * 1000⟩ := by
      rw [hst1]
      show mapGet (recordSend now
        { st with codes := mapSet st.codes e ⟨c2, now + (ttl : Int) * 60 * 1000⟩ } e).codes e
        = some ⟨c2, now + (ttl : Int) * 60 * 1000⟩
      rw [recordSend_codes]
      exact mapGet_mapSet_self st.codes e _
    have hexp : ¬ ((⟨c2, now + (ttl : Int) * 60 * 1000⟩ : CodeEntry).expiresAt < now) := by
      simp only [not_lt]
      have : (0 : Int) ≤ (ttl : Int) * 60 * 1000 := by positivity
      linarith
    constructor
    · intro hne
      rw [verifyCode_found isEmail now _ e v _ he0 he hv hget1, if_neg hexp,
        if_pos (Ne.symm hne)]
    · intro hmatch
      rw [verifyCode_found isEmail now _ e v _ he0 he hv hget1, if_neg hexp,
        if_neg (not_not_intro hmatch.symm)]

/-- Witness for C6 at concrete inputs: the preservation parts applied to a
one-entry store, and the overwrite part applied to stale code "111111"
versus fresh code "222222". -/
theorem c6_single_entry_overwrite_witness :
    keysNodup (sendCode 3 15 (fun _ => true) 0
        ⟨[("a@b.com", ⟨"111111", 600000⟩)], []⟩ (some "a@b.com") "222222"
        (.ok ())).2.codes ∧
    keysNodup (verifyCode (fun _ => true) 0
        ⟨[("a@b.com", ⟨"111111", 600000⟩)], []⟩ (some "a@b.com")
        (some (.str "111111"))).2.codes ∧
    keysNodup (reaper 0 ⟨[("a@b.com", ⟨"111111", 600000⟩)], []⟩).codes ∧
    (verifyCode (fun _ => true) 0
        (sendCode 3 15 (fun _ => true) 0 ⟨[("a@b.com", ⟨"111111", 600000⟩)], []⟩
          (some "a@b.com") "222222" (.ok ())).2
        (some "a@b.com") (some (.str "111111"))
      = (⟨400, .err "Invalid code"⟩,
         (sendCode 3 15 (fun _ => true) 0 ⟨[("a@b.com", ⟨"111111", 600000⟩)], []⟩
           (some "a@b.com") "222222" (.ok ())).2)) ∧
    (verifyCode (fun _ => true) 0
        (sendCode 3 15 (fun _ => true) 0 ⟨[("a@b.com", ⟨"111111", 600000⟩)], []⟩
          (some "a@b.com") "222222" (.ok ())).2
        (some "a@b.com") (some (.str "222222"))).1 = ⟨200, .ok "Email verified"⟩ :=
  ⟨c6_single_entry_overwrite.1 3 15 (fun _ => true) 0
      ⟨[("a@b.com", ⟨"111111", 600000⟩)], []⟩ (some "a@b.com") "222222" (.ok ())
      (by unfold keysNodup; decide),
   c6_single_entry_overwrite.2.1 (fun _ => true) 0
      ⟨[("a@b.com", ⟨"111111", 600000⟩)], []⟩ (some "a@b.com")
      (some (.str "111111")) (by unfold keysNodup; decide),
   c6_single_entry_overwrite.2.2.1 0 ⟨[("a@b.com", ⟨"111111", 600000⟩)], []⟩
      (by unfold keysNodup; decide),
   (c6_single_entry_overwrite.2.2.2 3 15 (fun _ => true) 0
      ⟨[("a@b.com", ⟨"111111", 600000⟩)], []⟩ "a@b.com" "222222"
      (by decide) rfl (by decide) (.str "111111") (by decide)).1 (by decide),
   (c6_single_entry_overwrite.2.2.2 3 15 (fun _ => true) 0
      ⟨[("a@b.com", ⟨"111111", 600000⟩)], []⟩ "a@b.com" "222222"
      (by decide) rfl (by decide) (.str "222222") (by decide)).2 (by decide)⟩

theorem missing_sendgrid_msg_ne (x : String) :
    "Missing SENDGRID_API_KEY" ≠ "SendGrid failed: " ++ x := by
  intro h
  have h2 : (some 'M' : Option Char) = some 'S' :=
    congrArg (fun s => s.data.head?) h
  exact absurd (Option.some.inj h2) (by decide)

/-- Claim C8 is false at the HTTP boundary: at concrete inputs, a
send-code request with the SendGrid key missing and one with the key
present but an upstream 500 both produce the identical generic response
`500 "Failed to send code"`, so the caller receives no distinct
`Misconfigured` error. -/
theorem c8_counterexample :
    (sendCode 3 15 (fun _ => true) 0 ⟨[], []⟩ (some "a@b.com") "111111"
        (sendMail .sendgrid ⟨none, none, none, none⟩ ⟨false, 500, "boom"⟩ (.ok ()))).1
      = ⟨500, .err "Failed to send code"⟩ ∧
    (sendCode 3 15 (fun _ => true) 0 ⟨[], []⟩ (some "a@b.com") "111111"
        (sendMail .sendgrid ⟨some "sg-key", none, none, none⟩ ⟨false, 500, "boom"⟩
          (.ok ()))).1
      = ⟨500, .err "Failed to send code"⟩ := by
  constructor <;> decide

/-- Claim C8 (amended): `sendMail` throws a distinct fixed message for each
missing-credential case, and a provider failure throws a message prefixed
with the provider name, never equal to the misconfiguration message — so
the two are distinguishable in the thrown error and in the server log —
but the send-code endpooint maps every dispatch error to the same generic
HTTP 500 "Failed to send code", so the caller cannot distinguish them. -/
theorem c8_misconfigured_error_taxonomy :
    (∀ (env : EmailEnv) (f : FetchResp) (s : Except String Unit),
      credMissing env.sendgridApiKey = true →
        sendMail .sendgrid env f s = .error "Missing SENDGRID_API_KEY") ∧
    (∀ (env : EmailEnv) (f : FetchResp) (s : Except String Unit),
      credMissing env.resendApiKey = true →
        sendMail .resend env f s = .error "Missing RESEND_API_KEY") ∧
    (∀ (env : EmailEnv) (f : FetchResp) (s : Except String Unit),
      (credMissing env.emailUser || credMissing env.emailPass) = true →
        sendMail .smtp env f s = .error "Missing EMAIL_USER or EMAIL_PASS for SMTP") ∧
    (∀ (env : EmailEnv) (f : FetchResp) (s : Except String Unit),
      credMissing env.sendgridApiKey = false → f.ok = false →
        sendMail .sendgrid env f s
          = .error ("SendGrid failed: " ++ toString f.status ++ " " ++ f.body)) ∧
    (∀ x : String, "Missing SENDGRID_API_KEY" ≠ "SendGrid failed: " ++ x) ∧
    (∀ (limit ttl : Nat) (isEmail : String → Bool) (now : Int) (st : ServerState)
        (email : Option String) (c m1 m2 : String),
      (sendCode limit ttl isEmail now st email c (.error m1)).1
        = (sendCode limit ttl isEmail now st email c (.error m2)).1) := by
  refine ⟨?_, ?_, ?_, ?_, missing_sendgrid_msg_ne, ?_⟩
  · intro env f s h
    simp [sendMail, h]
  · intro env f s h
    simp [sendMail, h]
  · intro env f s h
    simp [sendMail, h]
  · intro env f s h hf
    simp [sendMail, h, hf]
  · intro limit ttl isEmail now st email c m1 m2
    cases email with
    | none => rfl
    | some e =>
      simp only [sendCode]

/-- Witness for the amended C8 at concrete inputs. -/
theorem c8_misconfigured_error_taxonomy_witness :
    sendMail .sendgrid ⟨none, some "rk", some "u", some "p"⟩ ⟨true, 200, ""⟩ (.ok ())
      = .error "Missing SENDGRID_API_KEY" ∧
    sendMail .resend ⟨some "sk", none, none, none⟩ ⟨true, 200, ""⟩ (.ok ())
      = .error "Missing RESEND_API_KEY" ∧
    sendMail .smtp ⟨none, none, none, some "p"⟩ ⟨true, 200, ""⟩ (.ok ())
      = .error "Missing EMAIL_USER or EMAIL_PASS for SMTP" ∧
    sendMail .sendgrid ⟨some "sg-key", none, none, none⟩ ⟨false, 500, "boom"⟩ (.ok ())
      = .error ("SendGrid failed: " ++ toString (500 : Nat) ++ " " ++ "boom") ∧
    "Missing SENDGRID_API_KEY" ≠ "SendGrid failed: " ++ "500 boom" ∧
    (sendCode 3 15 (fun _ => true) 0 ⟨[], []⟩ (some "a@b.com") "111111"
        (.error "Missing SENDGRID_API_KEY")).1
      = (sendCode 3 15 (fun _ => true) 0 ⟨[], []⟩ (some "a@b.com") "111111"
        (.error "SendGrid failed: 500 boom")).1 :=
  ⟨c8_misconfigured_error_taxonomy.1 _ _ _ rfl,
   c8_misconfigured_error_taxonomy.2.1 _ _ _ rfl,
   c8_misconfigured_error_taxonomy.2.2.1 _ _ _ rfl,
   c8_misconfigured_error_taxonomy.2.2.2.1 _ _ _ rfl rfl,
   c8_misconfigured_error_taxonomy.2.2.2.2.1 "500 boom",
   c8_misconfigured_error_taxonomy.2.2.2.2.2 3 15 (fun _ => true) 0 ⟨[], []⟩
     (some "a@b.com") "111111" "Missing SENDGRID_API_KEY" "SendGrid failed: 500 boom"⟩

theorem mapGet_filterMap_pruneRecord (now : Int) (l : JsMap (List Int)) (e : String)
    (arr : List Int)
    (h : mapGet (l.filterMap (pruneRecord now)) e = some arr) :
    arr ≠ [] ∧ ∀ t ∈ arr, t > now - 1000 * 3600 := by
  induction l with
  | nil => simp [mapGet] at h
  | cons p rest ih =>
    obtain ⟨k1, ts⟩ := p
    by_cases hemp : (ts.filter (fun t => decide (t > now - 1000 * 3600))).isEmpty = true
    · have hpr : pruneRecord now (k1, ts) = none := by
        simp only [pruneRecord]
        rw [if_pos hemp]
      have hstep : List.filterMap (pruneRecord now) ((k1, ts) :: rest)
          = List.filterMap (pruneRecord now) rest := by
        rw [List.filterMap_cons, hpr]
      rw [hstep] at h
      exact ih h
    · have hpr : pruneRecord now (k1, ts)
          = some (k1, ts.filter (fun t => decide (t > now - 1000 * 3600))) := by
        simp only [pruneRecord]
        rw [if_neg hemp]
      have hstep : List.filterMap (pruneRecord now) ((k1, ts) :: rest)
          = (k1, ts.filter (fun t => decide (t > now - 1000 * 3600)))
              :: List.filterMap (pruneRecord now) rest := by
        rw [List.filterMap_cons, hpr]
      rw [hstep] at h
      simp only [mapGet] at h
      by_cases hk : k1 = e
      · rw [if_pos hk] at h
        injection h with hv
        subst hv
        refine ⟨fun hnil => hemp ?_, fun t ht => ?_⟩
        · rw [hnil]
          rfl
        · exact of_decide_eq_true (List.mem_filter.mp ht).2
      · rw [if_neg hk] at h
        exact ih h

/-- Claim C9 is false for reads: `canSend` filters only a local copy of
the record and never writes the store (the function performs no `set` or
`delete`), so after a `canSend` read at `now = 3600001` of a record
holding the lone timestamp 0, the store still holds that timestamp even
though it lies outside the trailing one-hour window, and the empty-record
deletion never happens on read. -/
theorem c9_counterexample :
    canSend 3 3600001 ⟨[], [("a@b.com", [0])]⟩ "a@b.com" = true ∧
    mapGet (⟨[], [("a@b.com", [0])]⟩ : ServerState).sendCounts "a@b.com" = some [0] ∧
    ¬ ((0 : Int) > 3600001 - 60 * 60 * 1000) := by
  refine ⟨by decide, by decide, by decide⟩

/-- Claim C9 (amended): the pruning invariant holds after every Reaper
sweep — every record the sweep leaves in the rate-limiter store is
nonempty and contains only timestamps inside the trailing one-hour
window, and every code entry it leaves is unexpired — while `canSend`
merely filters a local copy for its decision and does not persist the
pruning (the store is unchanged by reads). -/
theorem c9_reaper_invariant :
    (∀ (now : Int) (st : ServerState) (e : String) (arr : List Int),
      mapGet (reaper now st).sendCounts e = some arr →
        arr ≠ [] ∧ ∀ t ∈ arr, t > now - 1000 * 3600) ∧
    (∀ (now : Int) (st : ServerState) (e : String) (entry : CodeEntry),
      mapGet (reaper now st).codes e = some entry → now < entry.expiresAt) := by
  constructor
  · intro now st e arr h
    exact mapGet_filterMap_pruneRecord now st.sendCounts e arr h
  · intro now st e entry h
    have h2 : mapGet (List.filter (fun p => decide (now < p.2.expiresAt)) st.codes) e
        = some entry := h
    exact of_decide_eq_true
      (mapGet_filter_prop (fun p => decide (now < p.2.expiresAt)) st.codes e entry h2)

/-- Witness for the amended C9 at concrete inputs: a sweep at
`now = 3600001` keeps only the in-window part of a record and a sweep at
`now = 500` keeps only live code entries. -/
theorem c9_reaper_invariant_witness :
    (([3600000] : List Int) ≠ [] ∧
      ∀ t ∈ ([3600000] : List Int), t > 3600001 - 1000 * 3600) ∧
    (500 : Int) < (⟨"111111", 600000⟩ : CodeEntry).expiresAt :=
  ⟨c9_reaper_invariant.1 3600001
      ⟨[], [("a@b.com", [0, 3600000]), ("c@d.com", [0])]⟩ "a@b.com" [3600000]
      (by decide),
   c9_reaper_invariant.2 500 ⟨[("a@b.com", ⟨"111111", 600000⟩)], []⟩ "a@b.com"
      ⟨"111111", 600000⟩ (by decide)⟩

/-- Claim C10: the submitted code is coerced by `String(code).trim()`
while the stored code is compared untrimmed, so any submitted JSON value
whose coercion trims to the stored code — in particular the number with
the code's decimal digits, or the code string surrounded by whitespace —
verifies exactly as the stored string itself does, succeeding and
consuming the entry. -/
theorem c10_coerced_code_matches (isEmail : String → Bool) (now : Int)
    (st : ServerState) (e : String) (entry : CodeEntry) (he0 : e ≠ "")
    (he : isEmail e = true) (hget : mapGet st.codes e = some entry)
    (hexp : ¬ entry.expiresAt < now) (hct : jsTrim entry.code = entry.code)
    (hc0 : entry.code ≠ "") :
    ∀ v : JsVal, v.falsy = false → jsTrim v.toStr = entry.code →
      verifyCode isEmail now st (some e) (some v)
        = verifyCode isEmail now st (some e) (some (.str entry.code)) ∧
      verifyCode isEmail now st (some e) (some v)
        = (⟨200, .ok "Email verified"⟩, { st with codes := mapDelete st.codes e }) := by
  intro v hv hvt
  have hfalsy : (JsVal.str entry.code).falsy = false := by
    simp [JsVal.falsy, hc0]
  have h1 : verifyCode isEmail now st (some e) (some v)
      = (⟨200, .ok "Email verified"⟩, { st with codes := mapDelete st.codes e }) := by
    rw [verifyCode_found isEmail now st e v entry he0 he hv hget, if_neg hexp,
      if_neg (not_not_intro hvt.symm)]
  have h2 : verifyCode isEmail now st (some e) (some (.str entry.code))
      = (⟨200, .ok "Email verified"⟩, { st with codes := mapDelete st.codes e }) := by
    rw [verifyCode_found isEmail now st e (.str entry.code) entry he0 he hfalsy hget,
      if_neg hexp, if_neg (not_not_intro (by simpa [JsVal.toStr] using hct.symm))]
  exact ⟨h1.trans h2.symm, h1⟩

/-- Witness for C10: with stored code "482913", both the JSON number
482913 and the string " 482913 " verify exactly as "482913" does. -/
theorem c10_coerced_code_matches_witness :
    (verifyCode (fun _ => true) 500 ⟨[("a@b.com", ⟨"482913", 1000⟩)], []⟩
        (some "a@b.com") (some (.num 482913))
      = verifyCode (fun _ => true) 500 ⟨[("a@b.com", ⟨"482913", 1000⟩)], []⟩
        (some "a@b.com") (some (.str "482913")) ∧
    verifyCode (fun _ => true) 500 ⟨[("a@b.com", ⟨"482913", 1000⟩)], []⟩
        (some "a@b.com") (some (.num 482913))
      = (⟨200, .ok "Email verified"⟩,
         { (⟨[("a@b.com", ⟨"482913", 1000⟩)], []⟩ : ServerState) with
             codes := mapDelete [("a@b.com", ⟨"482913", 1000⟩)] "a@b.com" })) ∧
    (verifyCode (fun _ => true) 500 ⟨[("a@b.com", ⟨"482913", 1000⟩)], []⟩
        (some "a@b.com") (some (.str " 482913 "))
      = verifyCode (fun _ => true) 500 ⟨[("a@b.com", ⟨"482913", 1000⟩)], []⟩
        (some "a@b.com") (some (.str "482913")) ∧
    verifyCode (fun _ => true) 500 ⟨[("a@b.com", ⟨"482913", 1000⟩)], []⟩
        (some "a@b.com") (some (.str " 482913 "))
      = (⟨200, .ok "Email verified"⟩,
         { (⟨[("a@b.com", ⟨"482913", 1000⟩)], []⟩ : ServerState) with
             codes := mapDelete [("a@b.com", ⟨"482913", 1000⟩)] "a@b.com" })) :=
  ⟨c10_coerced_code_matches (fun _ => true) 500
      ⟨[("a@b.com", ⟨"482913", 1000⟩)], []⟩ "a@b.com" ⟨"482913", 1000⟩
      (by decide) rfl (by decide) (by decide) (by decide) (by decide)
      (.num 482913) (by decide) (by decide),
   c10_coerced_code_matches (fun _ => true) 500
      ⟨[("a@b.com", ⟨"482913", 1000⟩)], []⟩ "a@b.com" ⟨"482913", 1000⟩
      (by decide) rfl (by decide) (by decide) (by decide) (by decide)
      (.str " 482913 ") (by decide) (by decide)⟩
